import Mathlib

/-!
Shallow embedding of the wbmbot_v3 core (listing parser, criteria matcher,
application ledger, and the driver-facing helpers) in Lean 4, together with
theorems settling the specification claims about it.

Conventions of the embedding:
* Python `str` values are modelled as `Str := List Char` (a Python string is a
  sequence of Unicode code points, exactly as a `List Char`).
* Python `float` results are modelled as exact rationals `ℚ`; none of the
  verified properties depends on IEEE-754 rounding.
* Python functions that can raise return `PRes α`; each partial primitive
  (`list` subscripting, `float(...)`) is routed through an error-returning
  helper so that "never raises" is a provable statement, not a typing artifact.
* Selenium / filesystem / network interactions are out of scope (the spec
  treats them as external collaborators); functions touching them take the
  outcome of the external call as an argument.
-/

/-- Python exception kinds that the embedded code can raise. -/
inductive PyErr where
  | valueError
  | typeError
  | indexError
  | runtimeError
deriving DecidableEq

/-- Result of running a piece of Python code: a value or a raised exception. -/
inductive PRes (α : Type) where
  | ok (a : α)
  | err (e : PyErr)
deriving DecidableEq

instance : Monad PRes where
  pure := PRes.ok
  bind m f := match m with
    | .ok a => f a
    | .err e => .err e

/-- Did the computation finish without raising? -/
def PRes.isOkB {α : Type} : PRes α → Bool
  | .ok _ => true
  | .err _ => false

/-- A Python string: a finite sequence of Unicode code points. -/
abbrev Str := List Char

/-- Code points of a Lean string literal (used to write Python literals). -/
def str (s : String) : Str := s.data

/-- Python `list` subscripting `l[i]` for non-negative `i`: raises `IndexError`
when the index is out of range. -/
def pyGet {α : Type} (l : List α) (i : Nat) : PRes α :=
  match l.get? i with
  | some v => .ok v
  | none => .err .indexError

/-- Characters treated as whitespace by Python's `str.strip`/`str.split`/`\s`
(ASCII whitespace plus the no-break space, the repertoire occurring in this
catalog's pages). -/
def pyIsSpace (c : Char) : Bool :=
  c = ' ' || c = '\t' || c = '\n' || c = '\r' || c = '\x0b' || c = '\x0c' || c = '\xa0'

/-- Python `str.lstrip()` (whitespace). -/
def pyStripL (s : Str) : Str := s.dropWhile pyIsSpace

/-- Python `str.rstrip()` (whitespace). -/
def pyStripR (s : Str) : Str := (s.reverse.dropWhile pyIsSpace).reverse

/-- Python `str.strip()` (whitespace on both ends). -/
def pyStrip (s : Str) : Str := pyStripR (pyStripL s)

/-- Python `str.lstrip(chars)`. -/
def stripCharsL (cs : Str) (s : Str) : Str := s.dropWhile (fun c => cs.contains c)

/-- Python `str.rstrip(chars)`. -/
def stripCharsR (cs : Str) (s : Str) : Str :=
  (s.reverse.dropWhile (fun c => cs.contains c)).reverse

/-- Python `str.strip(chars)`. -/
def stripChars (cs : Str) (s : Str) : Str := stripCharsR cs (stripCharsL cs s)

/-- Python `str.lower` on one character, restricted to the character repertoire
of this catalog (ASCII letters and the German capital umlauts). -/
def pyLowerChar (c : Char) : Char :=
  if c = 'Ä' then 'ä' else if c = 'Ö' then 'ö' else if c = 'Ü' then 'ü' else c.toLower

/-- Python `str.lower`. -/
def pyLower (s : Str) : Str := s.map pyLowerChar

/-- Does `s` start with `p`? (Used to express Python substring search.) -/
def beginsWith : Str → Str → Bool
  | _, [] => true
  | [], _ :: _ => false
  | c :: cs, p :: ps => c = p && beginsWith cs ps

/-- Position of the first occurrence of `needle` in `hay`
(Python `hay.find(needle)`, with `none` standing for `-1`). -/
def findSub : Str → Str → Option Nat
  | hay, needle =>
    if beginsWith hay needle then some 0
    else match hay with
      | [] => none
      | _ :: t => (findSub t needle).map (· + 1)

/-- Python substring membership `needle in hay`. -/
def containsSub (hay needle : Str) : Bool := (findSub hay needle).isSome

/-- Python `s.split(sep)` for a one-character separator (`"".split(sep) == [""]`). -/
def splitOnChar (sep : Char) : Str → List Str
  | [] => [[]]
  | c :: t =>
    let r := splitOnChar sep t
    if c = sep then [] :: r
    else match r with
      | h :: t' => (c :: h) :: t'
      | [] => [[c]]

/-- Python `sep.join(xs)`. -/
def joinWith (sep : Str) (xs : List Str) : Str := List.intercalate sep xs

/-- Helper for `pySplitWs`: accumulate the current (reversed) token. -/
def splitWsAux : Str → Str → List Str
  | [], acc => if acc = [] then [] else [acc.reverse]
  | c :: t, acc =>
    if pyIsSpace c then
      if acc = [] then splitWsAux t [] else acc.reverse :: splitWsAux t []
    else splitWsAux t (c :: acc)

/-- Python `str.split()` with no argument: split on whitespace runs, no empties. -/
def pySplitWs (s : Str) : List Str := splitWsAux s []

/-- Helper for `pySplitLines`: accumulate the current (reversed) line. -/
def splitLinesAux : Str → Str → List Str
  | [], acc => if acc = [] then [] else [acc.reverse]
  | '\r' :: '\n' :: t, acc => acc.reverse :: splitLinesAux t []
  | '\n' :: t, acc => acc.reverse :: splitLinesAux t []
  | '\r' :: t, acc => acc.reverse :: splitLinesAux t []
  | c :: t, acc => splitLinesAux t (c :: acc)

/-- Python `str.splitlines()` restricted to the `\n`, `\r\n`, `\r` terminators
(the ones occurring in this catalog's pages). -/
def pySplitLines (s : Str) : List Str :=
  match s with
  | [] => []
  | _ => splitLinesAux s []

/-- Decimal digits of a natural number (Python `str(n)` for `n : int ≥ 0`). -/
def natToStr (n : Nat) : Str := (Nat.repr n).data

/-!
SHA-256 (`hashlib.sha256(...).hexdigest()` in the source), implemented over
`Nat` bytes/words with explicit `% 2^32` wraparound. The development only ever
uses it as a deterministic function of its input.
-/

/-- UTF-8 encoding of one Unicode scalar value (Python `str.encode("utf-8")`). -/
def utf8Char (c : Char) : List Nat :=
  let n := c.toNat
  if n < 0x80 then [n]
  else if n < 0x800 then [0xc0 + n / 64, 0x80 + n % 64]
  else if n < 0x10000 then [0xe0 + n / 4096, 0x80 + n / 64 % 64, 0x80 + n % 64]
  else [0xf0 + n / 262144, 0x80 + n / 4096 % 64, 0x80 + n / 64 % 64, 0x80 + n % 64]

/-- UTF-8 encoding of a string as a list of byte values. -/
def utf8Encode (s : Str) : List Nat := (s.map utf8Char).flatten

/-- Addition of 32-bit words with wraparound. -/
def add32 (xs : List Nat) : Nat := (List.foldl (· + ·) 0 xs) % 2 ^ 32

/-- Right rotation of a 32-bit word by `k` bits. -/
def rotr32 (k x : Nat) : Nat := (x / 2 ^ k + x % 2 ^ k * 2 ^ (32 - k)) % 2 ^ 32

/-- Bitwise complement of a 32-bit word. -/
def bnot32 (x : Nat) : Nat := 2 ^ 32 - 1 - x

/-- SHA-256 choice function. -/
def shaCh (e f g : Nat) : Nat := Nat.xor (Nat.land e f) (Nat.land (bnot32 e) g)

/-- SHA-256 majority function. -/
def shaMaj (a b c : Nat) : Nat :=
  Nat.xor (Nat.xor (Nat.land a b) (Nat.land a c)) (Nat.land b c)

/-- SHA-256 Σ₀. -/
def bigSigma0 (x : Nat) : Nat := Nat.xor (Nat.xor (rotr32 2 x) (rotr32 13 x)) (rotr32 22 x)

/-- SHA-256 Σ₁. -/
def bigSigma1 (x : Nat) : Nat := Nat.xor (Nat.xor (rotr32 6 x) (rotr32 11 x)) (rotr32 25 x)

/-- SHA-256 σ₀. -/
def smallSigma0 (x : Nat) : Nat := Nat.xor (Nat.xor (rotr32 7 x) (rotr32 18 x)) (x / 2 ^ 3)

/-- SHA-256 σ₁. -/
def smallSigma1 (x : Nat) : Nat := Nat.xor (Nat.xor (rotr32 17 x) (rotr32 19 x)) (x / 2 ^ 10)

/-- The 64 SHA-256 round constants (decimal). -/
def shaK : List Nat :=
  [1116352408, 1899447441, 3049323471, 3921009573, 961987163, 1508970993,
   2453635748, 2870763221, 3624381080, 310598401, 607225278, 1426881987,
   1925078388, 2162078206, 2614888103, 3248222580, 3835390401, 4022224774,
   264347078, 604807628, 770255983, 1249150122, 1555081692, 1996064986,
   2554220882, 2821834349, 2952996808, 3210313671, 3336571891, 3584528711,
   113926993, 338241895, 666307205, 773529912, 1294757372, 1396182291,
   1695183700, 1986661051, 2177026350, 2456956037, 2730485921, 2820302411,
   3259730800, 3345764771, 3516065817, 3600352804, 4094571909, 275423344,
   430227734, 506948616, 659060556, 883997877, 958139571, 1322822218,
   1537002063, 1747873779, 1955562222, 2024104815, 2227730452, 2361852424,
   2428436474, 2756734187, 3204031479, 3329325298]

/-- The SHA-256 initial hash values (decimal). -/
def shaH0 : List Nat :=
  [1779033703, 3144134277, 1013904242, 2773480762,
   1359893119, 2600822924, 528734635, 1541459225]

/-- Big-endian bytes of the 64-bit message bit-length. -/
def lenBytes (b : Nat) : List Nat :=
  [b / 2 ^ 56 % 256, b / 2 ^ 48 % 256, b / 2 ^ 40 % 256, b / 2 ^ 32 % 256,
   b / 2 ^ 24 % 256, b / 2 ^ 16 % 256, b / 2 ^ 8 % 256, b % 256]

/-- SHA-256 message padding to a multiple of 64 bytes. -/
def padMsg (msg : List Nat) : List Nat :=
  let len := msg.length
  msg ++ 0x80 :: (List.replicate ((119 - len % 64) % 64) 0 ++ lenBytes (len * 8))

/-- Split a byte list into 64-byte blocks. -/
def toBlocks (l : List Nat) : List (List Nat) :=
  if h : l = [] then [] else l.take 64 :: toBlocks (l.drop 64)
termination_by l.length
decreasing_by
  simp only [List.length_drop]
  have := List.length_pos.mpr h
  omega

/-- Pack bytes into big-endian 32-bit words. -/
def bytesToWords : List Nat → List Nat
  | b0 :: b1 :: b2 :: b3 :: rest =>
    (b0 * 2 ^ 24 + b1 * 2 ^ 16 + b2 * 2 ^ 8 + b3) :: bytesToWords rest
  | _ => []

/-- Extend the 16-word message schedule by `n` further words. -/
def extendW : List Nat → Nat → List Nat
  | ws, 0 => ws
  | ws, n + 1 =>
    let i := ws.length
    let w := add32 [smallSigma1 (ws.getD (i - 2) 0), ws.getD (i - 7) 0,
                    smallSigma0 (ws.getD (i - 15) 0), ws.getD (i - 16) 0]
    extendW (ws ++ [w]) n

/-- One SHA-256 round on the 8-word working state. -/
def compressStep (st : List Nat) (kw : Nat × Nat) : List Nat :=
  match st with
  | [a, b, c, d, e, f, g, h] =>
    let t1 := add32 [h, bigSigma1 e, shaCh e f g, kw.1, kw.2]
    let t2 := add32 [bigSigma0 a, shaMaj a b c]
    [add32 [t1, t2], a, b, c, add32 [d, t1], e, f, g]
  | _ => st

/-- Process one 64-byte block into the running hash. -/
def processBlock (h : List Nat) (block : List Nat) : List Nat :=
  let ws := extendW (bytesToWords block) 48
  let st := List.foldl compressStep h (List.zip shaK ws)
  List.zipWith (fun x y => add32 [x, y]) h st

/-- The eight 32-bit hash words of a byte message. -/
def sha256Words (msg : List Nat) : List Nat :=
  List.foldl processBlock shaH0 (toBlocks (padMsg msg))

/-- Lowercase hex digit. -/
def hexChar (n : Nat) : Char :=
  if n < 10 then Char.ofNat ('0'.toNat + n) else Char.ofNat ('a'.toNat + n - 10)

/-- Eight lowercase hex digits of a 32-bit word. -/
def wordToHex (w : Nat) : Str :=
  [hexChar (w / 2 ^ 28 % 16), hexChar (w / 2 ^ 24 % 16), hexChar (w / 2 ^ 20 % 16),
   hexChar (w / 2 ^ 16 % 16), hexChar (w / 2 ^ 12 % 16), hexChar (w / 2 ^ 8 % 16),
   hexChar (w / 2 ^ 4 % 16), hexChar (w % 16)]

/-- `hashlib.sha256(bytes).hexdigest()`. -/
def sha256Hex (msg : List Nat) : Str :=
  List.foldr (fun w acc => wordToHex w ++ acc) [] (sha256Words msg)

/-- `hashlib.sha256(s.encode("utf-8")).hexdigest()`. -/
def sha256HexOfStr (s : Str) : Str := sha256Hex (utf8Encode s)

/-!
Embedding of `utility/misc_operations.py`: numeric conversion of rent/size
display strings and the rent/size/rooms verification checks.
-/

/-- A Python value as it flows into the `verify_flat_*` checks: a string, a
number (`int`/`float`, modelled as `ℚ`), or `None`. -/
inductive PyVal where
  | pyStr (s : Str)
  | pyNum (q : ℚ)
  | pyNone
deriving DecidableEq

/-- Result of `convert_rent`: the empty-string sentinel `""` (returned when the
currency marker is absent) or a parsed number. -/
inductive RentVal where
  | unknown
  | num (q : ℚ)
deriving DecidableEq

/-- The Python value that a `RentVal` stands for (`""` or a float). -/
def RentVal.toPyVal : RentVal → PyVal
  | .unknown => .pyStr []
  | .num q => .pyNum q

/-- `re.sub(r"[^\d.,]", "", t)`: keep only digits and separators. `\d` is
modelled by its ASCII fragment `0-9` (the digits this catalog uses). -/
def keepNumeric (t : Str) : Str :=
  t.filter (fun c => c.isDigit || c = '.' || c = ',')

/-- `t.replace(",", ".")`. -/
def commaToDot (t : Str) : Str := t.map (fun c => if c = ',' then '.' else c)

/-- `t.replace(ch, "", k)`: remove the first `k` occurrences of `ch`.
The source calls it with `k = t.count(".") - 1`; when the count is zero that
Python expression is `-1` (replace all), which coincides with removing the
first `0` occurrences since none are present. -/
def removeCountChar (ch : Char) : Nat → Str → Str
  | 0, s => s
  | _ + 1, [] => []
  | k + 1, x :: t => if x = ch then removeCountChar ch k t else x :: removeCountChar ch (k + 1) t

/-- Value of a digit string as a natural number. -/
def digitsVal (ds : Str) : Nat :=
  List.foldl (fun a c => a * 10 + (c.toNat - '0'.toNat)) 0 ds

/-- Python `float(s)` on the strings that reach it in this code: strings made
of ASCII digits and at most one `.` (the output alphabet of the
`keepNumeric`/`commaToDot`/`removeCountChar` pipeline). It succeeds exactly
when at least one digit is present (`float("")` and `float(".")` raise). -/
def pyFloatDigits (s : Str) : Option ℚ :=
  if s.any Char.isDigit && s.all (fun c => c.isDigit || c = '.') && List.count '.' s ≤ 1 then
    match splitOnChar '.' s with
    | [intPart] => some (mkRat (digitsVal intPart) 1)
    | [intPart, fracPart] =>
      some (mkRat (digitsVal intPart * 10 ^ fracPart.length + digitsVal fracPart)
        (10 ^ fracPart.length))
    | _ => none
  else none

/-- `misc_operations.convert_rent`: `""` when the euro marker is absent,
otherwise strip non-numeric characters, unify `,` to `.`, drop all but the
last separator occurrence, and parse — raising `ValueError` when the residue
is not a number. -/
def convert_rent (rent_text : Str) : PRes RentVal :=
  if !containsSub rent_text (str "€") then .ok .unknown
  else
    let numeric := keepNumeric rent_text
    let numeric := commaToDot numeric
    let numeric := removeCountChar '.' (List.count '.' numeric - 1) numeric
    match pyFloatDigits numeric with
    | some q => .ok (.num q)
    | none => .err .valueError

/-- `misc_operations.convert_size`: `0.0` (a float, not the `""` sentinel)
when the `m²` marker is absent, otherwise the same pipeline as
`convert_rent`. -/
def convert_size (size_text : Str) : PRes ℚ :=
  if !containsSub size_text (str "m²") then .ok 0
  else
    let numeric := keepNumeric size_text
    let numeric := commaToDot numeric
    let numeric := removeCountChar '.' (List.count '.' numeric - 1) numeric
    match pyFloatDigits numeric with
    | some q => .ok q
    | none => .err .valueError

/-- First maximal run of digits in a string (`re.findall(r"\d+", t)[0]`). -/
def firstDigitRun : Str → Option Str
  | [] => none
  | c :: t => if c.isDigit then some (c :: t.takeWhile Char.isDigit) else firstDigitRun t

/-- `misc_operations.get_zimmer_count`: first integer in the text, `None` when
the text is empty or contains no digits. -/
def get_zimmer_count (text : Str) : Option ℤ :=
  if text = [] then none
  else match firstDigitRun text with
    | some ds => some (digitsVal ds)
    | none => none

/-- Python `float(x)` on a `PyVal`: numbers pass through, `None` raises
`TypeError`, and strings are parsed (whitespace-stripped digits with an
optional sign and at most one `.`; everything else raises `ValueError`). -/
def pyFloat : PyVal → PRes ℚ
  | .pyNum q => .ok q
  | .pyNone => .err .typeError
  | .pyStr s =>
    let t := pyStrip s
    let (sign, body) : ℚ × Str :=
      match t with
      | '-' :: rest => (-1, rest)
      | '+' :: rest => (1, rest)
      | _ => (1, t)
    match pyFloatDigits body with
    | some q => .ok (sign * q)
    | none => .err .valueError

/-- `misc_operations.verify_flat_rent`: pass when the rent is the `""`
sentinel or either float conversion raises; otherwise pass iff rent ≤ user
threshold. -/
def verify_flat_rent (flat_rent user_flat_rent : PyVal) : Bool :=
  if flat_rent = .pyStr [] then true
  else match pyFloat flat_rent, pyFloat user_flat_rent with
    | .ok rent_value, .ok user_value => rent_value ≤ user_value
    | _, _ => true

/-- `misc_operations.verify_flat_size`: pass when the size is `""` or `None`
or either float conversion raises; otherwise pass iff size ≥ user threshold. -/
def verify_flat_size (flat_size user_flat_size : PyVal) : Bool :=
  if flat_size = .pyStr [] || flat_size = .pyNone then true
  else match pyFloat flat_size, pyFloat user_flat_size with
    | .ok size_value, .ok user_value => size_value ≥ user_value
    | _, _ => true

/-- `misc_operations.verify_flat_rooms`: pass when the rooms value is `""` or
`None` or either float conversion raises; otherwise pass iff rooms ≥ user
threshold. -/
def verify_flat_rooms (flat_rooms user_flat_rooms : PyVal) : Bool :=
  if flat_rooms = .pyStr [] || flat_rooms = .pyNone then true
  else match pyFloat flat_rooms, pyFloat user_flat_rooms with
    | .ok rooms_value, .ok user_value => rooms_value ≥ user_value
    | _, _ => true

/-- The rent check as `process_flats` composes it:
`verify_flat_rent(convert_rent(totalRentRaw), profile.flat_rent_below)`. -/
def rent_check (total_rent_raw : Str) (user_flat_rent : PyVal) : PRes Bool :=
  match convert_rent total_rent_raw with
  | .ok rv => .ok (verify_flat_rent rv.toPyVal user_flat_rent)
  | .err e => .err e

/-- The size check as `process_flats` composes it:
`verify_flat_size(convert_size(sizeRaw), profile.flat_size_above)`. -/
def size_check (size_raw : Str) (user_flat_size : PyVal) : PRes Bool :=
  match convert_size size_raw with
  | .ok q => .ok (verify_flat_size (.pyNum q) user_flat_size)
  | .err e => .err e

/-- The rooms check as `process_flats` composes it:
`verify_flat_rooms(get_zimmer_count(roomsRaw), profile.flat_rooms_above)`. -/
def rooms_check (rooms_raw : Str) (user_flat_rooms : PyVal) : Bool :=
  verify_flat_rooms
    (match get_zimmer_count rooms_raw with
     | some n => .pyNum (n : ℚ)
     | none => .pyNone)
    user_flat_rooms

/-!
Embedding of `handlers/flat.py`: the dual-mode (markup / plain-text) listing
parser. Python `re` searches are hand-compiled to explicit scanners over the
code-point list; `\w`/`\d` and the NFKD fold are restricted to the character
repertoire this catalog uses, as noted on each definition.
-/

/-- Python `\w` (word character), restricted to ASCII alphanumerics, `_`, and
the German letters / superscript digit occurring in this catalog. -/
def pyIsWordChar (c : Char) : Bool :=
  c.isAlphanum || c = '_' || c = 'ä' || c = 'ö' || c = 'ü' ||
  c = 'Ä' || c = 'Ö' || c = 'Ü' || c = 'ß' || c = '²'

/-- Do five ASCII digits stand at position `i` of `s`? -/
def digitsAt5 (s : Str) (i : Nat) : Bool :=
  ((s.drop i).take 5).length = 5 && ((s.drop i).take 5).all Char.isDigit

/-- Word boundary on the left of position `i` (`\b` before `\d{5}`). -/
def noWordBefore (s : Str) (i : Nat) : Bool :=
  i = 0 || (match s.get? (i - 1) with | some c => !pyIsWordChar c | none => true)

/-- No word character at position `j` (`\b` after `\d{5}`). -/
def noWordAt (s : Str) (j : Nat) : Bool :=
  match s.get? j with | some c => !pyIsWordChar c | none => true

/-- Leftmost match position of `\b\d{5}\b` in `s` (`re.search` semantics). -/
def zipSearchPos (s : Str) : Option Nat :=
  (List.range s.length).find? (fun i => digitsAt5 s i && noWordBefore s i && noWordAt s (i + 5))

/-- `Flat._parse_zip_city`: leftmost `\b(\d{5})\b\s*(.*)` match, returning
`(zip, stripped city remainder, match start)`; `none` models the source's
`("", "", -1)` failure triple, which callers test via the zip's truthiness. -/
def parse_zip_city (text : Str) : Option (Str × Str × Nat) :=
  match zipSearchPos text with
  | some i =>
    let after := (text.drop (i + 5)).dropWhile pyIsSpace
    let rest := after.takeWhile (fun c => c ≠ '\n')
    some ((text.drop i).take 5, pyStrip rest, i)
  | none => none

/-- Leftmost match position of `(\d{5})\s+` (the `_split_address` zip regex,
which has no `\b` anchors but requires at least one whitespace after). -/
def zipCitySpacePos (s : Str) : Option Nat :=
  (List.range s.length).find? (fun i =>
    digitsAt5 s i && (match s.get? (i + 5) with | some c => pyIsSpace c | none => false))

/-- Leftmost `(\d{5})\s+(.*)` match in `s`: `(zip digits, raw city remainder)`. -/
def zipCitySpace (s : Str) : Option (Str × Str) :=
  match zipCitySpacePos s with
  | some i =>
    let after := (s.drop (i + 5)).dropWhile pyIsSpace
    some ((s.drop i).take 5, after.takeWhile (fun c => c ≠ '\n'))
  | none => none

/-- NFKD-then-ASCII folding of one character, restricted to the repertoire of
this catalog (umlauts fold to base letters, `²` to `2`, other non-ASCII
characters are dropped like `encode("ascii", "ignore")` does). -/
def asciiFold (c : Char) : Option Char :=
  if c.toNat < 128 then some c
  else if c = 'ä' then some 'a' else if c = 'ö' then some 'o' else if c = 'ü' then some 'u'
  else if c = 'Ä' then some 'A' else if c = 'Ö' then some 'O' else if c = 'Ü' then some 'U'
  else if c = '²' then some '2'
  else none

/-- `Flat._normalize_text`: `ß → ss`, NFKD + ASCII-ignore, lowercase. -/
def normalize_text (value : Str) : Str :=
  let cleaned := (value.map (fun c => if c = 'ß' then str "ss" else [c])).flatten
  pyLower (cleaned.filterMap asciiFold)

/-- The street-scan stop keywords of `_parse_from_text` step 2. -/
def addressKeywordHit (normalized : Str) : Bool :=
  containsSub normalized (str "warmmiete") || containsSub normalized (str "kaltmiete") ||
  containsSub normalized (str "grosse") || containsSub normalized (str "zimmer")

/-- `Flat._looks_like_html`. -/
def looks_like_html (value : Str) : Bool :=
  value ≠ [] && containsSub value (str "<") && containsSub value (str "</")

/-- Generic one-pass `re.sub` scanner: at each position, `step` either matches
a non-empty prefix (returning the replacement and the matched length) or the
current character is copied verbatim. -/
def rewriteScan (step : Str → Option (Str × Nat)) : Str → Str
  | [] => []
  | c :: t =>
    match step (c :: t) with
    | some (rep, k) => rep ++ rewriteScan step (t.drop (k - 1))
    | none => c :: rewriteScan step t
termination_by s => s.length
decreasing_by
  all_goals simp only [List.length_drop, List.length_cons]
  all_goals omega

/-- Length of a `<br\s*/?>` match (case-insensitive) at the head of `s`. -/
def brMatchLen (s : Str) : Option Nat :=
  match s with
  | '<' :: c1 :: c2 :: rest =>
    if pyLowerChar c1 = 'b' && pyLowerChar c2 = 'r' then
      let wsn := (rest.takeWhile pyIsSpace).length
      match rest.drop wsn with
      | '/' :: '>' :: _ => some (3 + wsn + 2)
      | '>' :: _ => some (3 + wsn + 1)
      | _ => none
    else none
  | _ => none

/-- `re.sub(r"<br\s*/?>", r, s, flags=re.IGNORECASE)` for a one-character
replacement. -/
def brSub (r : Char) (s : Str) : Str :=
  rewriteScan (fun u => (brMatchLen u).map (fun k => ([r], k))) s

/-- Length of a `<[^>]+>` match at the head of `s`. -/
def tagMatchLen (s : Str) : Option Nat :=
  match s with
  | '<' :: t =>
    let body := t.takeWhile (fun c => c ≠ '>')
    if body ≠ [] && body.length < t.length then some (2 + body.length) else none
  | _ => none

/-- `re.sub(r"<[^>]+>", r, s)` for a one-character replacement. -/
def tagSub (r : Char) (s : Str) : Str :=
  rewriteScan (fun u => (tagMatchLen u).map (fun k => ([r], k))) s

/-- The entities of `html.unescape` occurring in this catalog's markup. -/
def entityTable : List (Str × Char) :=
  [(str "amp;", '&'), (str "lt;", '<'), (str "gt;", '>'), (str "quot;", '"'),
   (str "apos;", '\''), (str "#39;", '\''), (str "nbsp;", '\xa0')]

/-- One `html.unescape` replacement step. -/
def unescapeStep (s : Str) : Option (Str × Nat) :=
  match s with
  | '&' :: t =>
    match entityTable.find? (fun e => beginsWith t e.1) with
    | some e => some ([e.2], 1 + e.1.length)
    | none => none
  | _ => none

/-- `html.unescape`, restricted to `entityTable`. -/
def htmlUnescape (s : Str) : Str := rewriteScan unescapeStep s

/-- `Flat._to_text`: markup becomes newline-separated stripped lines, plain
text passes through. -/
def toText (value : Str) : Str :=
  if value = [] then []
  else if looks_like_html value then
    let stripped := brSub '\n' value
    let stripped := tagSub '\n' stripped
    let stripped := htmlUnescape stripped
    joinWith (str "\n") ((pySplitLines stripped).map pyStrip)
  else value

/-- Case-insensitive prefix test. -/
def beginsWithCI (s p : Str) : Bool := beginsWith (pyLower s) (pyLower p)

/-- Case-insensitive substring search position. -/
def findSubCI (hay needle : Str) : Option Nat := findSub (pyLower hay) (pyLower needle)

/-- Do the class tokens occur in order inside a quoted class value
(`[^"]*C1[^"]*C2[^"]*`)? -/
def classTokensIn (quoted : Str) : List Str → Bool
  | [] => true
  | c :: rest =>
    match findSubCI quoted c with
    | some j => classTokensIn (quoted.drop (j + c.length)) rest
    | none => false

/-- Length of a `<TAG[^>]*class="…tokens…"[^>]*>` opening-tag match at the head
of `s` (case-insensitive; assumes class attribute values without `>`, as in
this catalog's markup). -/
def openTagLen (tag : Str) (clss : List Str) (s : Str) : Option Nat :=
  if beginsWithCI s ('<' :: tag) then
    let afterTag := s.drop (1 + tag.length)
    let head := afterTag.takeWhile (fun c => c ≠ '>')
    if head.length = afterTag.length then none
    else match findSubCI head (str "class=\"") with
      | none => none
      | some j =>
        let quoted := (head.drop (j + 7)).takeWhile (fun c => c ≠ '"')
        if quoted.length = (head.drop (j + 7)).length then none
        else if classTokensIn quoted clss then some (1 + tag.length + head.length + 1)
        else none
  else none

/-- Search for `<TAG[^>]*class="…"[^>]*>(.*?)</TAG>` (IGNORECASE|DOTALL):
leftmost conforming opening tag whose closing tag follows, with the lazily
shortest content group. -/
def extractRawHtml (tag : Str) (clss : List Str) : Str → Option Str
  | [] => none
  | c :: t =>
    match openTagLen tag clss (c :: t) with
    | some k =>
      let content := (c :: t).drop k
      match findSubCI content ('<' :: '/' :: (tag ++ ['>'])) with
      | some m => some (content.take m)
      | none => extractRawHtml tag clss t
    | none => extractRawHtml tag clss t

/-- `Flat._extract_html_value`: regex extraction followed by markup stripping,
entity unescaping and whitespace collapsing. -/
def extract_html_value (raw_html : Str) (tag : Str) (clss : List Str) : Str :=
  if raw_html = [] then []
  else match extractRawHtml tag clss raw_html with
    | none => []
    | some value =>
      let value := brSub ' ' value
      let value := tagSub ' ' value
      let value := htmlUnescape value
      joinWith (str " ") (pySplitWs (value.map (fun c => if c = '\xa0' then ' ' else c)))

/-- `Flat._split_address`: comma-split with the last part as "zip + city", and
an embedded-zip override scan on the assembled street. -/
def split_address (address_line : Str) : Str × Str × Str :=
  if address_line = [] then ([], [], [])
  else
    let parts := ((splitOnChar ',' address_line).map pyStrip).filter (fun p => p ≠ [])
    let (street0, zip0, city0) :=
      match parts with
      | [] => (([] : Str), ([] : Str), ([] : Str))
      | [p] => (p, [], [])
      | _ =>
        let street := joinWith (str ", ") parts.dropLast
        let candidate := parts.getLastD []
        match zipCitySpace candidate with
        | some (z, cityRaw) => (street, pyStrip z, pyStrip cityRaw)
        | none => (street, [], candidate)
    match parse_zip_city street0 with
    | some (z, cityRest, zip_start) =>
      let zip1 := if zip0 ≠ [] then zip0 else pyStrip z
      let city1 := if city0 ≠ [] then city0 else cityRest
      (stripChars (str ", ") (street0.take zip_start), zip1, city1)
    | none => (street0, zip0, city0)

/-- The eight mutable string fields of a `Flat` while it is being parsed. -/
structure Fields where
  title : Str
  district : Str
  street : Str
  zip_code : Str
  city : Str
  total_rent : Str
  size : Str
  rooms : Str
deriving DecidableEq

/-- `Flat._parse_from_html`: structural-marker extraction of all fields. -/
def parse_from_html (raw_html : Str) : Fields :=
  let title := extract_html_value raw_html (str "h2") [str "imageTitle"]
  let district := extract_html_value raw_html (str "div") [str "area"]
  let address_line := extract_html_value raw_html (str "div") [str "address"]
  let szc := split_address address_line
  let total_rent := extract_html_value raw_html (str "div")
    [str "main-property-value", str "main-property-rent"]
  let size := extract_html_value raw_html (str "div")
    [str "main-property-value", str "main-property-size"]
  let rooms := extract_html_value raw_html (str "div")
    [str "main-property-value", str "main-property-rooms"]
  ⟨title, district, szc.1, szc.2.1, szc.2.2, total_rent, size, rooms⟩

/-- The `while address_index < len(attributes)` street-accumulation loop of
`_parse_from_text`: collect lines until a 5-digit token or an address keyword
appears; returns the parts and the boundary index. -/
def streetScan (attrs : List Str) (i : Nat) (parts : List Str) : PRes (List Str × Nat) :=
  if i < attrs.length then
    match pyGet attrs i with
    | .err e => .err e
    | .ok candidate =>
      if (zipSearchPos candidate).isSome then .ok (parts, i)
      else if addressKeywordHit (normalize_text candidate) then .ok (parts, i)
      else streetScan attrs (i + 1) (parts ++ [candidate])
  else .ok (parts, i)
termination_by attrs.length - i
decreasing_by omega

/-- The address-line block of `_parse_from_text` (boundary line with zip, or
one-line lookahead): returns updated street parts, the index past the address,
and the zip/city values. -/
def addressBlock (attrs : List Str) (i0 : Nat) (parts0 : List Str) (zip0 city0 : Str) :
    PRes (List Str × Nat × Str × Str) :=
  if i0 < attrs.length then
    match pyGet attrs i0 with
    | .err e => .err e
    | .ok address_line =>
      match parse_zip_city address_line with
      | some (parsed_zip, parsed_city, zip_start) =>
        let street_candidate := stripCharsR (str ",") (pyStrip (address_line.take zip_start))
        let parts1 := if street_candidate ≠ [] then parts0 ++ [street_candidate] else parts0
        .ok (parts1, i0 + 1, parsed_zip, parsed_city)
      | none =>
        let parts1 := parts0 ++ [address_line]
        let i1 := i0 + 1
        if i1 < attrs.length then
          match pyGet attrs i1 with
          | .err e => .err e
          | .ok address_line2 =>
            match parse_zip_city address_line2 with
            | some (parsed_zip, parsed_city, zip_start) =>
              let street_candidate :=
                stripCharsR (str ",") (pyStrip (address_line2.take zip_start))
              let parts2 :=
                if street_candidate ≠ [] && parts1 = [] then parts1 ++ [street_candidate]
                else parts1
              .ok (parts2, i1 + 1, parsed_zip, parsed_city)
            | none => .ok (parts1, i1, zip0, city0)
        else .ok (parts1, i1, zip0, city0)
  else .ok (parts0, i0, zip0, city0)

/-- The token loop of `Flat._extract_detail`, carried with its index so the
`tokens[index + 1]` lookahead is the source's guarded subscript. -/
def edAux (tokens : List Str) (label : Str) (index : Nat) : PRes Str :=
  if index < tokens.length then
    match pyGet tokens index with
    | .err e => .err e
    | .ok token =>
      let stripped := pyStrip token
      let token_lower := pyLower stripped
      match findSub token_lower (pyLower label) with
      | some position =>
        let remainder := stripChars (str " :") (stripped.drop (position + label.length))
        if remainder ≠ [] then .ok remainder
        else if index + 1 < tokens.length then
          match pyGet tokens (index + 1) with
          | .err e => .err e
          | .ok nxt => .ok (pyStrip nxt)
        else edAux tokens label (index + 1)
      | none => edAux tokens label (index + 1)
  else .ok []
termination_by tokens.length - index
decreasing_by all_goals omega

/-- `Flat._extract_detail`. -/
def extract_detail (tokens : List Str) (label : Str) : PRes Str := edAux tokens label 0

/-- The title assignment of `_parse_from_text`:
`attributes[0] if attributes else ""` under the overwrite guard. -/
def titleStep (f0 : Fields) (attributes : List Str) (overwrite_missing : Bool) : PRes Str :=
  if overwrite_missing || f0.title = [] then
    if attributes ≠ [] then pyGet attributes 0 else pure []
  else pure f0.title

/-- The district assignment of `_parse_from_text`:
`attributes[1] if len(attributes) > 1 else ""` under the overwrite guard. -/
def districtStep (f0 : Fields) (attributes : List Str) (overwrite_missing : Bool) : PRes Str :=
  if overwrite_missing || f0.district = [] then
    if attributes.length > 1 then pyGet attributes 1 else pure []
  else pure f0.district

/-- One of the three trailing detail-field assignments of `_parse_from_text`
(`total_rent`/`size`/`rooms`) under the overwrite guard. -/
def detailStep (current : Str) (details : List Str) (overwrite_missing : Bool) (label : Str) :
    PRes Str :=
  if overwrite_missing || current = [] then extract_detail details label else pure current

/-- `Flat._parse_from_text`: title/district from the first lines, street parts
up to the zip/keyword boundary, zip+city from the boundary line (with one-line
lookahead), detail tokens after the address. Fields are only written when
`overwrite_missing` is set or the current value is empty. -/
def parse_from_text (f0 : Fields) (attributes : List Str) (overwrite_missing : Bool) :
    PRes Fields := do
  let title ← titleStep f0 attributes overwrite_missing
  let district ← districtStep f0 attributes overwrite_missing
  let scanned ← streetScan attributes 2 []
  let blk ← addressBlock attributes scanned.2 scanned.1 f0.zip_code f0.city
  let street_parts := blk.1
  let address_index := blk.2.1
  let street :=
    if overwrite_missing || f0.street = [] then
      pyStrip (joinWith (str " ") (street_parts.map (fun part => stripChars (str ", ") part)))
    else f0.street
  let zip_code := if overwrite_missing || f0.zip_code = [] then pyStrip blk.2.2.1 else f0.zip_code
  let city := if overwrite_missing || f0.city = [] then pyStrip blk.2.2.2 else f0.city
  let details := attributes.drop address_index
  let total_rent ← detailStep f0.total_rent details overwrite_missing (str "warmmiete")
  let size ← detailStep f0.size details overwrite_missing (str "größe")
  let rooms ← detailStep f0.rooms details overwrite_missing (str "zimmer")
  pure ⟨title, district, street, zip_code, city, total_rent, size, rooms⟩

/-- A parsed listing (`handlers/flat.py`, class `Flat`). -/
structure Flat where
  title : Str
  district : Str
  street : Str
  zip_code : Str
  city : Str
  total_rent : Str
  size : Str
  rooms : Str
  wbs : Bool
  hash : Str
deriving DecidableEq

/-- The all-empty initial field values of `Flat.__init__`. -/
def emptyFields : Fields := ⟨[], [], [], [], [], [], [], []⟩

/-- `Flat.__init__`: mode selection, primary parse, force-fill text fallback
when rent/size/rooms are still empty, WBS marker detection, and the identity
hash over the raw markup (or the derived text). -/
def mkFlat (flat_source : Str) : PRes Flat := do
  let raw_html := if looks_like_html flat_source then flat_source else []
  let flat_text := toText flat_source
  let flat_attr := ((splitOnChar '\n' flat_text).map pyStrip).filter (fun l => l ≠ [])
  let f1 ←
    if raw_html ≠ [] then pure (parse_from_html raw_html)
    else parse_from_text emptyFields flat_attr false
  let f2 ←
    if f1.total_rent = [] || f1.size = [] || f1.rooms = [] then
      parse_from_text f1 flat_attr true
    else pure f1
  let wbs := containsSub (pyLower f2.title) (str "wbs") ||
             containsSub (pyLower flat_text) (str "wbs")
  let identifier := if raw_html ≠ [] then raw_html else flat_text
  pure ⟨f2.title, f2.district, f2.street, f2.zip_code, f2.city, f2.total_rent, f2.size,
        f2.rooms, wbs, sha256HexOfStr identifier⟩

/-!
Embedding of `helpers/webDriverOperations.py`: the application-delay wait, the
details-button navigation, the per-listing application step, pagination, and
the rent-ascending sort. Driver interactions (element lookups, clicks) enter
as arguments describing the outcome of the external call; waits and log lines
are recorded as an effect trace.
-/

/-- `_format_delay`: human-readable duration of a second count. -/
def format_delay (seconds : Nat) : Str :=
  if seconds < 60 then natToStr seconds ++ str "s"
  else
    let minutes := seconds / 60
    let secs := seconds % 60
    if minutes < 60 then
      if secs ≠ 0 then natToStr minutes ++ str "m " ++ natToStr secs ++ str "s"
      else natToStr minutes ++ str "m"
    else
      let hours := minutes / 60
      let minutes2 := minutes % 60
      joinWith (str " ")
        ([natToStr hours ++ str "h"] ++
         (if minutes2 ≠ 0 then [natToStr minutes2 ++ str "m"] else []) ++
         (if secs ≠ 0 then [natToStr secs ++ str "s"] else []))

/-- Observable effects of the embedded control-loop helpers. -/
inductive Effect where
  | log (msg : Str)
  | sleepSec (seconds : ℚ)
deriving DecidableEq

/-- Total seconds spent sleeping in an effect trace. -/
def totalSleepSeconds (effects : List Effect) : ℚ :=
  List.foldr (fun e acc => match e with | .sleepSec s => s + acc | .log _ => acc) 0 effects

/-- `wait_before_next_application`: returns immediately for a non-positive
delay, otherwise logs the countdown banner. The countdown loop that performs
the `time.sleep(1)` calls is unreachable dead code in the source (it sits
after the `return None` of `_extract_pdf_link_from_html`), so no sleep effect
occurs. -/
def wait_before_next_application (delay_seconds : ℤ) : List Effect :=
  if delay_seconds ≤ 0 then []
  else [.log (str "Waiting " ++ format_delay delay_seconds.toNat ++
              str " before the next application ⏱️")]

/-- Outcome of the external `find_element` call for a navigation button. -/
inductive LookupRes where
  | found (link : Str)
  | noSuchElement
  | staleElement
deriving DecidableEq

/-- `ansehen_btn`: returns the flat link on success; a `NoSuchElementException`
or `StaleElementReferenceException` is caught, logged, and the function falls
through to its implicit `return None`. -/
def ansehen_btn (lookup : LookupRes) : Option Str :=
  match lookup with
  | .found link => some link
  | .noSuchElement => none
  | .staleElement => none

/-- `apply_to_flat`, from the details-button lookup onward: the source runs
`if "seniorenwohnungen" in flat_link:` directly on `ansehen_btn`'s result, and
Python's `in` raises `TypeError` when that result is `None`. The form-filling
and submission driver calls are external effects and drop out of the returned
value. -/
def apply_to_flat (lookup : LookupRes) : PRes Bool :=
  match ansehen_btn lookup with
  | none => .err .typeError
  | some flat_link =>
    if containsSub flat_link (str "seniorenwohnungen") then .ok false
    else .ok true

/-- Outcome of `next_page`. -/
inductive PageResult where
  | advanced (page : Nat)
  | samePage (page : Nat)
  | lastPageStop
deriving DecidableEq

/-- `next_page`: click through on success; a missing next-page button is
logged and non-fatal (`LastPageReached` is only raised in run-once mode);
any other driver failure also falls back to the current page. -/
def next_page (lookup : LookupRes) (current_page : Nat) (terminate_on_last_page : Bool) :
    PageResult :=
  match lookup with
  | .found _ => .advanced (current_page + 1)
  | .noSuchElement =>
    if terminate_on_last_page then .lastPageStop else .samePage current_page
  | .staleElement => .samePage current_page

/-- One element of the list `sort_flats_by_rent` builds before sorting. -/
structure FlatEntry where
  index : Nat
  rent_key : Option ℚ
  display_rent : Str
  title : Str
  flat : Flat
deriving DecidableEq

/-- Lexicographic `≤` on code-point lists (Python string comparison). -/
def lexLE : Str → Str → Bool
  | [], _ => true
  | _ :: _, [] => false
  | a :: as, b :: bs => if a.toNat = b.toNat then lexLE as bs else a.toNat < b.toNat

/-- The secondary sort key: `entry["title"].lower() if entry["title"] else ""`. -/
def titleKeyOf (e : FlatEntry) : Str := if e.title ≠ [] then pyLower e.title else []

/-- Strict `<` on rent keys, with `none` playing `float("inf")`. -/
def rentLT : Option ℚ → Option ℚ → Bool
  | some a, some b => a < b
  | some _, none => true
  | none, _ => false

/-- The sort order of `sort_flats_by_rent`: ascending on the pair
`(rent_key, lowercased title)`. -/
def entryKeyLE (a b : FlatEntry) : Bool :=
  rentLT a.rent_key b.rent_key ||
  (a.rent_key = b.rent_key && lexLE (titleKeyOf a) (titleKeyOf b))

/-- The entry-building loop of `sort_flats_by_rent` over the listing fragments
(the driver yields one raw fragment string per flat element); an exception
from `convert_rent` propagates. -/
def mkEntries : List Str → Nat → PRes (List FlatEntry)
  | [], _ => .ok []
  | source :: rest, index => do
    let flat_obj ← mkFlat source
    let rent_value ← convert_rent flat_obj.total_rent
    let rent_key := match rent_value with | .num q => some q | .unknown => none
    let entry : FlatEntry :=
      ⟨index, rent_key,
       if flat_obj.total_rent ≠ [] then flat_obj.total_rent else str "unknown",
       if flat_obj.title ≠ [] then flat_obj.title else str "Flat #" ++ natToStr (index + 1),
       flat_obj⟩
    let entries ← mkEntries rest (index + 1)
    pure (entry :: entries)

/-- `sort_flats_by_rent`: build the entries, then sort them stably by
`(rent_key, lowercased title)` ascending (Python `list.sort` is a stable sort;
`List.mergeSort` is the stable sort on the same total preorder). -/
def sort_flats_by_rent (sources : List Str) : PRes (List FlatEntry) := do
  let entries ← mkEntries sources 0
  pure (entries.mergeSort entryKeyLE)

/-!
Embedding of `utility/application_store.py`: the composite ledger's read
fan-out and the Firestore-backed ledger keyed by
`sha256("{normalized email}|{flat hash}")`. The remote collection is modelled
as an association list of documents by key; `constants.today` and the
`created_at` clock enter as parameters.
-/

/-- `CompositeApplicationStore.has_applied` over the outcomes of the member
backends' reads (in order): the first member returning `True` wins, a raising
member is caught, logged and skipped, and `False` results fall through. -/
def composite_has_applied : List (PRes Bool) → Bool
  | [] => false
  | r :: rest =>
    match r with
    | .ok true => true
    | .ok false => composite_has_applied rest
    | .err _ => composite_has_applied rest

/-- `FirestoreApplicationStore._normalize_email`: trim whitespace, lowercase. -/
def normalize_email (email : Str) : Str := pyLower (pyStrip email)

/-- `FirestoreApplicationStore._doc_id`:
`sha256(f"{normalized_email}|{flat_hash}".encode("utf-8")).hexdigest()`. -/
def doc_id (email flat_hash : Str) : Str :=
  sha256HexOfStr (normalize_email email ++ '|' :: flat_hash)

/-- One Firestore ledger document (`_build_entry`'s payload). -/
structure FsEntry where
  email : Str
  flat_hash : Str
  date : Str
  applied_on : Str
  title : Str
  street : Str
  zip_code : Str
  address : Str
  rent : RentVal
  size : ℚ
  rooms : Option ℤ
  wbs : Bool
  created_at : Str
deriving DecidableEq

/-- `FirestoreApplicationStore._build_entry`; `today`/`now` are the external
clock values (`constants.today.isoformat()` and `datetime.now(utc)`).
`convert_rent`/`convert_size` run while building, so their exceptions
propagate out of `record_application`. -/
def build_entry (today now : Str) (email : Str) (f : Flat) : PRes FsEntry := do
  let rent ← convert_rent f.total_rent
  let size ← convert_size f.size
  pure ⟨pyStrip email, f.hash, today, today, f.title, f.street, f.zip_code,
        pyStrip (f.street ++ ' ' :: f.zip_code), rent, size,
        get_zimmer_count f.rooms, f.wbs, now⟩

/-- The remote collection: documents by key (one document per computed key). -/
def Collection := List (Str × FsEntry)

/-- Key-existence check (`self._collection.document(doc_id).get().exists`). -/
def colGetExists : Collection → Str → Bool
  | [], _ => false
  | kv :: rest, k => kv.1 = k || colGetExists rest k

/-- Keyed upsert (`document(doc_id).set(payload, merge=True)`). -/
def colSet : Collection → Str → FsEntry → Collection
  | [], k, v => [(k, v)]
  | kv :: rest, k, v => if kv.1 = k then (k, v) :: rest else kv :: colSet rest k v

/-- `FirestoreApplicationStore.has_applied` on an initialized store. -/
def fs_has_applied (col : Collection) (email : Str) (f : Flat) : Bool :=
  colGetExists col (doc_id email f.hash)

/-- `FirestoreApplicationStore.record_application` on an initialized store. -/
def fs_record (today now : Str) (email : Str) (f : Flat) (col : Collection) :
    PRes Collection := do
  let payload ← build_entry today now email f
  pure (colSet col (doc_id email f.hash) payload)

/-!
Concrete data and projections used by the claim theorems.
-/

/-- Four listing fragments realizing the spec's sorting scenario: rents
`[1200, 800, unknown, 800]` with titles `[B, A, C, D]` in input order. -/
def demoSources : List Str :=
  [str "B\nMitte\nTeststr 5, 10115 Berlin\nWarmmiete 1200 €",
   str "A\nMitte\nTeststr 5, 10115 Berlin\nWarmmiete 800 €",
   str "C\nMitte\nTeststr 5, 10115 Berlin",
   str "D\nMitte\nTeststr 5, 10115 Berlin\nWarmmiete 800 €"]

/-- Titles of a sort result (empty on an exception). -/
def entryTitles (r : PRes (List FlatEntry)) : List Str :=
  match r with
  | .ok l => l.map (fun e => e.title)
  | .err _ => []

/-- Display rents of a sort result (empty on an exception). -/
def entryRents (r : PRes (List FlatEntry)) : List Str :=
  match r with
  | .ok l => l.map (fun e => e.display_rent)
  | .err _ => []

/-- The eight parsed string fields of a parse result (empty on an exception). -/
def fieldsOfRes (r : PRes Flat) : List Str :=
  match r with
  | .ok f => [f.title, f.district, f.street, f.zip_code, f.city, f.total_rent, f.size, f.rooms]
  | .err _ => []

/-- A concrete already-parsed listing used by the ledger witness (its rent and
size strings are empty, so building its ledger payload succeeds). -/
def demoFlat : Flat :=
  ⟨str "Sunny Flat", str "Mitte", str "Teststr 1", str "10115", str "Berlin",
   [], [], [], false, str "hash-entry"⟩

/-!
Theorems. General lemmas about the embedding come first, then one theorem per
specification claim (with witnesses / counterexamples where required).
-/

theorem PRes.ok_bind {α β : Type} (a : α) (f : α → PRes β) :
    (PRes.ok a >>= f) = f a := rfl

theorem PRes.err_bind {α β : Type} (e : PyErr) (f : α → PRes β) :
    (PRes.err e >>= f) = PRes.err e := rfl

theorem PRes.pure_eq {α : Type} (a : α) : (pure a : PRes α) = PRes.ok a := rfl

theorem pyGet_ok {α : Type} {l : List α} {i : Nat} (h : i < l.length) :
    ∃ v, pyGet l i = .ok v := by
  unfold pyGet
  rcases hg : l.get? i with _ | v
  · exact absurd (List.get?_eq_none.mp hg) (by omega)
  · exact ⟨v, rfl⟩

/-- C2 — the claim says `wait_before_next_application(delay_seconds)` suspends
execution for `delay_seconds` seconds after a successful application; in the
code the countdown/sleep loop is unreachable (stranded after the
`return None` of `_extract_pdf_link_from_html`), so the wait performs no sleep
at all, for any delay. -/
theorem wait_before_next_application_never_sleeps :
    (∀ delay_seconds : ℤ, totalSleepSeconds (wait_before_next_application delay_seconds) = 0)
    ∧ totalSleepSeconds (wait_before_next_application 30) = 0
    ∧ wait_before_next_application 30 ≠ [] := by
  refine ⟨fun d => ?_, ?_, ?_⟩
  · unfold wait_before_next_application
    split
    · rfl
    · rfl
  · unfold wait_before_next_application
    norm_num [totalSleepSeconds]
  · unfold wait_before_next_application
    norm_num

/-- C3 — the claim says an element-lookup failure (the details button not
found) is logged, treated as unavailable, and the per-listing step returns
normally; in the code `ansehen_btn` does swallow the lookup failure and
returns `None`, but `apply_to_flat` then evaluates
`"seniorenwohnungen" in None`, which raises `TypeError`, so the per-listing
step raises instead of returning. -/
theorem apply_to_flat_missing_button_type_error :
    ansehen_btn .noSuchElement = none
    ∧ ansehen_btn .staleElement = none
    ∧ apply_to_flat .noSuchElement = .err .typeError
    ∧ apply_to_flat (.found (str "https://www.wbm.de/angebote/123")) = .ok true
    ∧ next_page .noSuchElement 3 false = .samePage 3 := by
  refine ⟨rfl, rfl, rfl, by decide, rfl⟩

/-- C1 — the claim says an unparseable `sizeRaw` (empty string, or no `m²`
marker) passes the size check for every `minSize`; in the code `convert_size`
returns the float `0.0` (not the `""` sentinel) when `m²` is absent, so
`verify_flat_size(0.0, minSize)` compares numbers and fails whenever
`minSize > 0`. -/
theorem size_check_unparseable_zero_fails :
    convert_size (str "") = .ok 0
    ∧ size_check (str "") (.pyNum 17) = .ok false
    ∧ size_check (str "unknown") (.pyNum 17) = .ok false
    ∧ verify_flat_size (.pyNum 0) (.pyNum 17) = false := by
  refine ⟨by decide, by decide, by decide, by decide⟩

/-- C6 — `CompositeApplicationStore.has_applied` returns true iff some member
backend's read returns `True` without raising; raising members are skipped
(treated as "no") and the composite itself just returns a boolean. -/
theorem composite_has_applied_iff_member_ok_true :
    (∀ results : List (PRes Bool),
      composite_has_applied results = true ↔ PRes.ok true ∈ results)
    ∧ (∀ (e : PyErr) (results : List (PRes Bool)),
      composite_has_applied (.err e :: results) = composite_has_applied results) := by
  constructor
  · intro results
    induction results with
    | nil => simp [composite_has_applied]
    | cons r rest ih =>
      rcases r with b | e
      · rcases b with _ | _
        · simpa [composite_has_applied] using ih
        · simp [composite_has_applied]
      · simpa [composite_has_applied] using ih
  · intro e results
    rfl

/-- Witness for C6 at a concrete member list: a raising backend followed by a
backend that reports true. -/
theorem composite_has_applied_iff_member_ok_true_witness :
    composite_has_applied [.err .runtimeError, .ok true] = true
    ∧ composite_has_applied [.err .runtimeError, .ok false] = false := by
  constructor
  · exact (composite_has_applied_iff_member_ok_true.1 [.err .runtimeError, .ok true]).mpr
      (by decide)
  · have h := composite_has_applied_iff_member_ok_true.1 [.err .runtimeError, .ok false]
    have : ¬ (PRes.ok true ∈ ([.err .runtimeError, .ok false] : List (PRes Bool))) := by decide
    rcases hb : composite_has_applied [.err .runtimeError, .ok false] with _ | _
    · rfl
    · exact absurd (h.mp hb) this

unseal streetScan edAux in
/-- C4 — `convert_rent` is not total: on a string containing `€` but no digit
(here `"€"` itself) the numeric residue is empty and `float("")` raises
`ValueError`; consequently `sort_flats_by_rent` raises on a listing whose
parsed rent string is such a value, and so does the rent check composition in
`process_flats`. -/
theorem convert_rent_euro_no_digit_raises :
    convert_rent (str "€") = .err .valueError
    ∧ containsSub (str "€") (str "€") = true
    ∧ (str "€").any Char.isDigit = false
    ∧ sort_flats_by_rent [str "T\nMitte\nTeststr 5, 10115 Berlin\nWarmmiete €"]
        = .err .valueError
    ∧ rent_check (str "€") (.pyNum 1000) = .err .valueError := by
  refine ⟨by decide, by decide, by decide, by decide, by decide⟩


theorem PRes.isOkB_iff {α : Type} {m : PRes α} : m.isOkB = true ↔ ∃ a, m = .ok a := by
  rcases m with a | e <;> simp [PRes.isOkB]

theorem PRes.isOkB_bind {α β : Type} {m : PRes α} {f : α → PRes β}
    (hm : m.isOkB = true) (hf : ∀ a, (f a).isOkB = true) : (m >>= f).isOkB = true := by
  rcases m with a | e
  · exact hf a
  · simp [PRes.isOkB] at hm

theorem streetScan_ok (attrs : List Str) :
    ∀ i parts, (streetScan attrs i parts).isOkB = true := by
  have key : ∀ n i parts, attrs.length - i ≤ n → (streetScan attrs i parts).isOkB = true := by
    intro n
    induction n with
    | zero =>
      intro i parts hle
      rw [streetScan, if_neg (by omega : ¬ i < attrs.length)]
      rfl
    | succ n ih =>
      intro i parts hle
      rw [streetScan]
      split
      · rename_i hi
        obtain ⟨v, hv⟩ := pyGet_ok hi
        rw [hv]
        dsimp only
        split
        · rfl
        · split
          · rfl
          · exact ih (i + 1) (parts ++ [v]) (by omega)
      · rfl
  exact fun i parts => key (attrs.length - i) i parts le_rfl

theorem addressBlock_ok (attrs : List Str) (i0 : Nat) (parts0 : List Str) (zip0 city0 : Str) :
    (addressBlock attrs i0 parts0 zip0 city0).isOkB = true := by
  unfold addressBlock
  split
  · rename_i h0
    obtain ⟨v, hv⟩ := pyGet_ok h0
    rw [hv]
    dsimp only
    split
    · rfl
    · split
      · rename_i h1
        obtain ⟨v2, hv2⟩ := pyGet_ok h1
        rw [hv2]
        dsimp only
        split
        · rfl
        · rfl
      · rfl
  · rfl

theorem edAux_ok (tokens : List Str) (label : Str) :
    ∀ index, (edAux tokens label index).isOkB = true := by
  have key : ∀ n index, tokens.length - index ≤ n → (edAux tokens label index).isOkB = true := by
    intro n
    induction n with
    | zero =>
      intro index hle
      rw [edAux, if_neg (by omega : ¬ index < tokens.length)]
      rfl
    | succ n ih =>
      intro index hle
      rw [edAux]
      split
      · rename_i hi
        obtain ⟨v, hv⟩ := pyGet_ok hi
        rw [hv]
        dsimp only
        split
        · split
          · rfl
          · split
            · rename_i hrem h2
              obtain ⟨v2, hv2⟩ := pyGet_ok h2
              rw [hv2]
              rfl
            · exact ih (index + 1) (by omega)
        · exact ih (index + 1) (by omega)
      · rfl
  exact fun index => key (tokens.length - index) index le_rfl

theorem extract_detail_ok (tokens : List Str) (label : Str) :
    (extract_detail tokens label).isOkB = true :=
  edAux_ok tokens label 0

theorem titleStep_ok (f0 : Fields) (attrs : List Str) (ow : Bool) :
    (titleStep f0 attrs ow).isOkB = true := by
  unfold titleStep
  split
  · split
    · rename_i ha
      obtain ⟨v, hv⟩ := pyGet_ok (l := attrs) (i := 0)
        (by cases attrs with | nil => simp at ha | cons _ _ => simp)
      rw [hv]
      rfl
    · rfl
  · rfl

theorem districtStep_ok (f0 : Fields) (attrs : List Str) (ow : Bool) :
    (districtStep f0 attrs ow).isOkB = true := by
  unfold districtStep
  split
  · split
    · rename_i ha
      obtain ⟨v, hv⟩ := pyGet_ok (l := attrs) (i := 1) ha
      rw [hv]
      rfl
    · rfl
  · rfl

theorem detailStep_ok (current : Str) (details : List Str) (ow : Bool) (label : Str) :
    (detailStep current details ow label).isOkB = true := by
  unfold detailStep
  split
  · exact extract_detail_ok details label
  · rfl

theorem parse_from_text_ok (f0 : Fields) (attrs : List Str) (ow : Bool) :
    (parse_from_text f0 attrs ow).isOkB = true := by
  unfold parse_from_text
  refine PRes.isOkB_bind (titleStep_ok f0 attrs ow) (fun title => ?_)
  refine PRes.isOkB_bind (districtStep_ok f0 attrs ow) (fun district => ?_)
  refine PRes.isOkB_bind (streetScan_ok attrs 2 []) (fun scanned => ?_)
  refine PRes.isOkB_bind (addressBlock_ok attrs scanned.2 scanned.1 f0.zip_code f0.city)
    (fun blk => ?_)
  refine PRes.isOkB_bind (detailStep_ok f0.total_rent _ ow (str "warmmiete")) (fun tr => ?_)
  refine PRes.isOkB_bind (detailStep_ok f0.size _ ow (str "größe")) (fun sz => ?_)
  refine PRes.isOkB_bind (detailStep_ok f0.rooms _ ow (str "zimmer")) (fun rm => ?_)
  rfl

theorem mkFlat_ok (s : Str) : (mkFlat s).isOkB = true := by
  unfold mkFlat
  dsimp only
  split <;> split <;>
  · first
    | refine PRes.isOkB_bind rfl (fun f1 => ?_)
    | refine PRes.isOkB_bind (parse_from_text_ok _ _ _) (fun f1 => ?_)
    dsimp only
    split
    · exact PRes.isOkB_bind (parse_from_text_ok _ _ _) (fun f2 => rfl)
    · exact PRes.isOkB_bind rfl (fun f2 => rfl)

unseal streetScan edAux in
/-- C7 — the listing parser is total: constructing a `Flat` from any input
string (markup-shaped or plain text, including the empty string) terminates
with a value and never raises, and on the empty string every one of the eight
extracted fields degrades to the empty string. -/
theorem mkFlat_total_and_defaults :
    (∀ s : Str, ∃ f, mkFlat s = .ok f)
    ∧ fieldsOfRes (mkFlat (str "")) = [[], [], [], [], [], [], [], []] := by
  refine ⟨fun s => PRes.isOkB_iff.mp (mkFlat_ok s), by decide⟩

theorem lexLE_trans : ∀ a b c : Str, lexLE a b = true → lexLE b c = true → lexLE a c = true := by
  intro a
  induction a with
  | nil => intro b c _ _; rfl
  | cons x xs ih =>
    intro b c hab hbc
    cases b with
    | nil => simp [lexLE] at hab
    | cons y ys =>
      cases c with
      | nil => simp [lexLE] at hbc
      | cons z zs =>
        simp only [lexLE] at hab hbc ⊢
        by_cases hxy : x.toNat = y.toNat
        · rw [if_pos hxy] at hab
          by_cases hyz : y.toNat = z.toNat
          · rw [if_pos hyz] at hbc
            rw [if_pos (by omega)]
            exact ih ys zs hab hbc
          · rw [if_neg hyz] at hbc
            simp only [decide_eq_true_eq] at hbc
            rw [if_neg (by omega)]
            simp only [decide_eq_true_eq]
            omega
        · rw [if_neg hxy] at hab
          simp only [decide_eq_true_eq] at hab
          by_cases hyz : y.toNat = z.toNat
          · rw [if_neg (by omega)]
            simp only [decide_eq_true_eq]
            omega
          · rw [if_neg hyz] at hbc
            simp only [decide_eq_true_eq] at hbc
            rw [if_neg (by omega)]
            simp only [decide_eq_true_eq]
            omega

theorem lexLE_total : ∀ a b : Str, (lexLE a b || lexLE b a) = true := by
  intro a
  induction a with
  | nil => intro b; simp [lexLE]
  | cons x xs ih =>
    intro b
    cases b with
    | nil => simp [lexLE]
    | cons y ys =>
      simp only [lexLE]
      by_cases hxy : x.toNat = y.toNat
      · rw [if_pos hxy, if_pos (by omega)]
        exact ih ys
      · rw [if_neg hxy, if_neg (by omega)]
        simp only [Bool.or_eq_true, decide_eq_true_eq]
        omega

theorem rentLT_trans :
    ∀ x y z : Option ℚ, rentLT x y = true → rentLT y z = true → rentLT x z = true := by
  intro x y z hxy hyz
  rcases x with _ | a <;> rcases y with _ | b <;> rcases z with _ | c <;>
    simp [rentLT] at hxy hyz ⊢
  exact hxy.trans hyz

theorem entryKeyLE_trans :
    ∀ a b c : FlatEntry, entryKeyLE a b = true → entryKeyLE b c = true →
      entryKeyLE a c = true := by
  intro a b c hab hbc
  simp only [entryKeyLE, Bool.or_eq_true, Bool.and_eq_true, decide_eq_true_eq] at hab hbc ⊢
  rcases hab with h1 | ⟨he1, ht1⟩
  · rcases hbc with h2 | ⟨he2, ht2⟩
    · exact Or.inl (rentLT_trans _ _ _ h1 h2)
    · exact Or.inl (he2 ▸ h1)
  · rcases hbc with h2 | ⟨he2, ht2⟩
    · exact Or.inl (he1 ▸ h2)
    · exact Or.inr ⟨he1.trans he2, lexLE_trans _ _ _ ht1 ht2⟩

theorem entryKeyLE_total :
    ∀ a b : FlatEntry, (entryKeyLE a b || entryKeyLE b a) = true := by
  intro a b
  simp only [entryKeyLE, Bool.or_eq_true, Bool.and_eq_true, decide_eq_true_eq]
  by_cases he : a.rent_key = b.rent_key
  · have htot := lexLE_total (titleKeyOf a) (titleKeyOf b)
    simp only [Bool.or_eq_true] at htot
    rcases htot with h | h
    · exact Or.inl (Or.inr ⟨he, h⟩)
    · exact Or.inr (Or.inr ⟨he.symm, h⟩)
  · rcases ha : a.rent_key with _ | qa <;> rcases hb : b.rent_key with _ | qb
    · rw [ha, hb] at he
      exact absurd rfl he
    · exact Or.inr (Or.inl rfl)
    · exact Or.inl (Or.inl rfl)
    · have hne : qa ≠ qb := by
        intro hq
        rw [ha, hb, hq] at he
        exact he rfl
      rcases lt_or_gt_of_ne hne with h | h
      · exact Or.inl (Or.inl (decide_eq_true h))
      · exact Or.inr (Or.inl (decide_eq_true h))

unseal streetScan edAux List.merge List.mergeSort in
/-- C5 — `sort_flats_by_rent` returns the listings in ascending order of the
key `(numeric rent with +infinity for unparseable rents, lowercased title)`:
every successful result is pairwise sorted under that key, and on the spec's
scenario — rents `[1200, 800, unknown, 800]` with titles `[B, A, C, D]` — the
output order is `800/A, 800/D, 1200/B, unknown/C`. -/
theorem sort_flats_by_rent_sorted :
    (∀ (sources : List Str) (res : List FlatEntry),
        sort_flats_by_rent sources = .ok res →
        List.Pairwise (fun a b => entryKeyLE a b = true) res)
    ∧ entryTitles (sort_flats_by_rent demoSources) = [str "A", str "D", str "B", str "C"]
    ∧ entryRents (sort_flats_by_rent demoSources)
        = [str "800 €", str "800 €", str "1200 €", str "unknown"] := by
  refine ⟨?_, by decide, by decide⟩
  intro sources res hres
  unfold sort_flats_by_rent at hres
  rcases hme : mkEntries sources 0 with entries | e
  · rw [hme, PRes.ok_bind] at hres
    simp only [PRes.pure_eq] at hres
    injection hres with hres
    rw [← hres]
    exact @List.sorted_mergeSort _ entryKeyLE entryKeyLE_trans entryKeyLE_total entries
  · rw [hme, PRes.err_bind] at hres
    exact PRes.noConfusion hres

unseal streetScan edAux List.merge List.mergeSort in
/-- Witness for C5: the general sortedness statement applied to the concrete
scenario fragments. -/
theorem sort_flats_by_rent_sorted_witness :
    ∃ res, sort_flats_by_rent demoSources = .ok res
      ∧ List.Pairwise (fun a b => entryKeyLE a b = true) res :=
  ⟨_, rfl, sort_flats_by_rent_sorted.1 demoSources _ rfl⟩

theorem splitOnChar_length (c : Char) (s : Str) :
    (splitOnChar c s).length = List.count c s + 1 := by
  induction s with
  | nil => simp [splitOnChar]
  | cons x t ih =>
    simp only [splitOnChar]
    by_cases hx : x = c
    · rw [if_pos hx]
      subst hx
      simp [List.count_cons, ih]
    · rw [if_neg hx]
      rcases hsp : splitOnChar c t with _ | ⟨h1, t1⟩
      · rw [hsp] at ih
        simp at ih
      · rw [hsp] at ih
        simp only [List.length_cons] at ih ⊢
        rw [List.count_cons]
        simp only [beq_iff_eq, hx, if_false]
        omega

theorem removeCountChar_sub {ch : Char} :
    ∀ (k : Nat) (s : Str) (c : Char), c ∈ removeCountChar ch k s → c ∈ s := by
  intro k s
  induction s generalizing k with
  | nil => intro c h; cases k <;> simpa [removeCountChar] using h
  | cons x t ih =>
    intro c h
    cases k with
    | zero => simpa [removeCountChar] using h
    | succ k =>
      simp only [removeCountChar] at h
      by_cases hx : x = ch
      · rw [if_pos hx] at h
        exact List.mem_cons_of_mem x (ih k c h)
      · rw [if_neg hx] at h
        rcases List.mem_cons.mp h with h | h
        · exact h ▸ List.mem_cons_self x t
        · exact List.mem_cons_of_mem x (ih (k + 1) c h)

theorem mem_removeCountChar {ch : Char} :
    ∀ (k : Nat) (s : Str) (c : Char), c ∈ s → c ≠ ch → c ∈ removeCountChar ch k s := by
  intro k s
  induction s generalizing k with
  | nil => intro c h _; simp at h
  | cons x t ih =>
    intro c h hne
    cases k with
    | zero => simpa [removeCountChar] using h
    | succ k =>
      simp only [removeCountChar]
      by_cases hx : x = ch
      · rw [if_pos hx]
        rcases List.mem_cons.mp h with h | h
        · exact absurd (h.trans hx) hne
        · exact ih k c h hne
      · rw [if_neg hx]
        rcases List.mem_cons.mp h with h | h
        · exact h ▸ List.mem_cons_self x _
        · exact List.mem_cons_of_mem x (ih (k + 1) c h hne)

theorem count_removeCountChar (ch : Char) :
    ∀ (k : Nat) (s : Str), List.count ch (removeCountChar ch k s) = List.count ch s - k := by
  intro k s
  induction s generalizing k with
  | nil => cases k <;> simp [removeCountChar]
  | cons x t ih =>
    cases k with
    | zero => simp [removeCountChar]
    | succ k =>
      simp only [removeCountChar]
      by_cases hx : x = ch
      · rw [if_pos hx]
        subst hx
        rw [ih k, List.count_cons]
        simp
      · rw [if_neg hx]
        rw [List.count_cons, List.count_cons, ih (k + 1)]
        simp only [beq_iff_eq, hx, if_false]
        omega

theorem keepNumeric_any_digit {s : Str} (h : s.any Char.isDigit = true) :
    (keepNumeric s).any Char.isDigit = true := by
  simp only [List.any_eq_true] at h ⊢
  obtain ⟨c, hc, hd⟩ := h
  exact ⟨c, List.mem_filter.mpr ⟨hc, by simp [hd]⟩, hd⟩

theorem commaToDot_any_digit {s : Str} (h : s.any Char.isDigit = true) :
    (commaToDot s).any Char.isDigit = true := by
  simp only [List.any_eq_true] at h ⊢
  obtain ⟨c, hc, hd⟩ := h
  have hne : ¬ c = ',' := by
    intro he
    rw [he] at hd
    exact absurd hd (by decide)
  refine ⟨c, ?_, hd⟩
  unfold commaToDot
  exact List.mem_map.mpr ⟨c, hc, by rw [if_neg hne]⟩

theorem removeDots_any_digit {s : Str} {k : Nat} (h : s.any Char.isDigit = true) :
    (removeCountChar '.' k s).any Char.isDigit = true := by
  simp only [List.any_eq_true] at h ⊢
  obtain ⟨c, hc, hd⟩ := h
  have hne : c ≠ '.' := by
    intro he
    rw [he] at hd
    exact absurd hd (by decide)
  exact ⟨c, mem_removeCountChar k s c hc hne, hd⟩

theorem pipeline_alphabet (s : Str) (k : Nat) :
    (removeCountChar '.' k (commaToDot (keepNumeric s))).all
      (fun c => c.isDigit || c = '.') = true := by
  rw [List.all_eq_true]
  intro c hc
  have hc2 := removeCountChar_sub k _ c hc
  obtain ⟨b, hb, hbc⟩ := List.mem_map.mp hc2
  have hb2 := (List.mem_filter.mp hb).2
  simp only [Bool.or_eq_true, decide_eq_true_eq] at hb2 ⊢
  by_cases hcomma : b = ','
  · rw [if_pos hcomma] at hbc
    exact Or.inr hbc.symm
  · rw [if_neg hcomma] at hbc
    subst hbc
    rcases hb2 with (h | h) | h
    · exact Or.inl h
    · exact Or.inr h
    · exact absurd h hcomma

theorem pyFloatDigits_isSome {s : Str} (h1 : s.any Char.isDigit = true)
    (h2 : s.all (fun c => c.isDigit || c = '.') = true) (h3 : List.count '.' s ≤ 1) :
    ∃ q, pyFloatDigits s = some q := by
  have hlen := splitOnChar_length '.' s
  unfold pyFloatDigits
  split
  · rcases hsp : splitOnChar '.' s with _ | ⟨a, _ | ⟨b, _ | _⟩⟩
    · rw [hsp] at hlen
      simp at hlen
    · exact ⟨_, rfl⟩
    · exact ⟨_, rfl⟩
    · rw [hsp] at hlen
      simp only [List.length_cons] at hlen
      omega
  · rename_i hcond
    exact absurd (by rw [h1, h2]; simp [h3]) hcond

theorem convert_rent_no_euro {s : Str} (he : containsSub s (str "€") = false) :
    convert_rent s = .ok .unknown := by
  unfold convert_rent
  rw [if_pos (by rw [he]; rfl)]

theorem convert_rent_num_of_digit {s : Str} (heuro : containsSub s (str "€") = true)
    (hdig : s.any Char.isDigit = true) : ∃ q, convert_rent s = .ok (.num q) := by
  unfold convert_rent
  rw [if_neg (by rw [heuro]; simp)]
  dsimp only
  obtain ⟨q, hq⟩ := pyFloatDigits_isSome
    (s := removeCountChar '.' (List.count '.' (commaToDot (keepNumeric s)) - 1)
      (commaToDot (keepNumeric s)))
    (removeDots_any_digit (commaToDot_any_digit (keepNumeric_any_digit hdig)))
    (pipeline_alphabet s (List.count '.' (commaToDot (keepNumeric s)) - 1))
    (by rw [count_removeCountChar]; omega)
  rw [hq]
  exact ⟨q, rfl⟩

/-- C8 — `convert_rent` requires the currency marker (`""` sentinel otherwise),
strips non-numeric characters, unifies `,` to `.`, removes every dot except
the last separator occurrence, and parses the residue: in particular
`convert_rent("Warmmiete 1.404,40 €") = 1404.40`, and any string with the
marker and at least one digit parses to a number. -/
theorem convert_rent_parse_spec :
    convert_rent (str "Warmmiete 1.404,40 €") = .ok (.num (7022 / 5))
    ∧ (∀ s : Str, containsSub s (str "€") = false → convert_rent s = .ok .unknown)
    ∧ (∀ s : Str, containsSub s (str "€") = true → s.any Char.isDigit = true →
        ∃ q, convert_rent s = .ok (.num q)) := by
  refine ⟨?_, fun _ he => convert_rent_no_euro he, fun _ he hd => convert_rent_num_of_digit he hd⟩
  have h1 : convert_rent (str "Warmmiete 1.404,40 €") = .ok (.num (mkRat 140440 100)) := by
    decide
  rw [h1]
  have h2 : (mkRat 140440 100 : ℚ) = 7022 / 5 := by
    rw [Rat.mkRat_eq_div]
    norm_num
  rw [h2]

/-- Witness for C8 at concrete inputs: a marker-free string yields the
sentinel, and the marker-plus-digit string of the docstring parses. -/
theorem convert_rent_parse_spec_witness :
    convert_rent (str "abc") = .ok .unknown
    ∧ ∃ q, convert_rent (str "Warmmiete 1.404,40 €") = .ok (.num q) :=
  ⟨convert_rent_parse_spec.2.1 (str "abc") (by decide),
   convert_rent_parse_spec.2.2 (str "Warmmiete 1.404,40 €") (by decide) (by decide)⟩

/-- C9 counterexample — the claim says an unparseable `totalRentRaw` passes
the rent check by default, but on `"€"` (currency marker present, no digits)
the check raises `ValueError` instead of passing. -/
theorem rent_check_euro_no_digit_not_pass :
    rent_check (str "€") (.pyNum 1000) ≠ .ok true := by decide

/-- C9 (amended) — the rent check passes when `totalRentRaw` lacks the
currency marker (the unknown sentinel), and when the raw string parses to a
number it passes exactly when the parsed rent is at most `profile.maxRent`; a
marker-bearing digit-free string raises instead of passing. -/
theorem rent_check_amended :
    ∀ (s : Str) (m : ℚ),
      (containsSub s (str "€") = false → rent_check s (.pyNum m) = .ok true)
      ∧ (∀ q : ℚ, convert_rent s = .ok (.num q) →
          rent_check s (.pyNum m) = .ok (decide (q ≤ m))) := by
  intro s m
  constructor
  · intro he
    unfold rent_check
    rw [convert_rent_no_euro he]
    rfl
  · intro q hq
    unfold rent_check
    rw [hq]
    rfl

/-- Witness for C9's amended statement: a marker-free rent passes, and the
docstring rent `1404.40` is checked against a `1000` threshold numerically. -/
theorem rent_check_amended_witness :
    rent_check (str "abc") (.pyNum 1000) = .ok true
    ∧ rent_check (str "Warmmiete 1.404,40 €") (.pyNum 1000)
        = .ok (decide ((mkRat 140440 100 : ℚ) ≤ 1000)) :=
  ⟨(rent_check_amended (str "abc") 1000).1 (by decide),
   (rent_check_amended (str "Warmmiete 1.404,40 €") 1000).2 (mkRat 140440 100) (by decide)⟩

theorem colGetExists_colSet (col : Collection) (k : Str) (v : FsEntry) :
    colGetExists (colSet col k v) k = true := by
  induction col with
  | nil => simp [colSet, colGetExists]
  | cons kv rest ih =>
    simp only [colSet]
    by_cases hk : kv.1 = k
    · rw [if_pos hk]
      simp [colGetExists]
    · rw [if_neg hk]
      simp [colGetExists, hk, ih]

/-- C10 — recipients that are equal after trimming and lowercasing get the
same Firestore document key `sha256("{normalizedEmail}|{identityHash}")`, so
after a successful `record_application(e1, listing)` the check
`has_applied(e2, listing)` returns true for the differently-spelled recipient. -/
theorem firestore_recipient_normalization :
    ∀ e1 e2 : Str, normalize_email e1 = normalize_email e2 →
      (∀ fh : Str, doc_id e1 fh = doc_id e2 fh)
      ∧ (∀ (today now : Str) (f : Flat) (col col' : Collection),
          fs_record today now e1 f col = .ok col' →
          fs_has_applied col' e2 f = true) := by
  intro e1 e2 hn
  have hdoc : ∀ fh, doc_id e1 fh = doc_id e2 fh := by
    intro fh
    unfold doc_id
    rw [hn]
  refine ⟨hdoc, ?_⟩
  intro today now f col col' hrec
  unfold fs_record at hrec
  rcases hbe : build_entry today now e1 f with payload | e
  · rw [hbe, PRes.ok_bind] at hrec
    simp only [PRes.pure_eq] at hrec
    injection hrec with hrec
    unfold fs_has_applied
    rw [← hrec, ← hdoc f.hash]
    exact colGetExists_colSet col (doc_id e1 f.hash) payload
  · rw [hbe, PRes.err_bind] at hrec
    exact PRes.noConfusion hrec

/-- Witness for C10: recording for `user@example.com` and checking
`USER@EXAMPLE.COM` against the same listing on an initially empty remote
collection. -/
theorem firestore_recipient_normalization_witness :
    normalize_email (str "user@example.com") = normalize_email (str "USER@EXAMPLE.COM")
    ∧ ∃ col', fs_record (str "2026-10-12") (str "2026-10-12T00:00:00+00:00")
        (str "user@example.com") demoFlat [] = .ok col'
      ∧ fs_has_applied col' (str "USER@EXAMPLE.COM") demoFlat = true := by
  refine ⟨by decide, ⟨_, rfl, ?_⟩⟩
  exact (firestore_recipient_normalization (str "user@example.com") (str "USER@EXAMPLE.COM")
    (by decide)).2 (str "2026-10-12") (str "2026-10-12T00:00:00+00:00") demoFlat [] _ rfl
